import Mathlib

/-
Verification of the permanager authorization engine (src/src/index.ts).

The repository's single source file contains two revisions of the same
library, separated by a document marker: the first revision spans lines
1-462, the second lines 463-895.  The evaluators (`evaluatePermit`,
`evaluatePrivilege`, `evaluatePermission`) and the checkers
(`checkPermit`, `checkPermission`, `checkPermits`) are textually identical
in both revisions and are embedded once below.  Where the two revisions
differ (the `Denial` constructor's message and `requirePermission`'s
category tag and return value) both variants are embedded side by side
with a `V1` / `V2` suffix.

Modelling conventions:
- `Promise` wrappers and `async` are erased: every evaluator in the source
  suspends only to await sub-results, and the fan-out of array siblings is
  joined back in original positional order, so the resolved value of each
  call is a pure function of its arguments.  A pending computation is kept
  as an explicit `promise` constructor whose evaluation recurses on the
  resolved value, exactly as the source does after `await`.
- JavaScript primitive values appearing in `error` fields are modelled by
  `JsPrim`; `undefined` (equivalently, an absent field) is `Option.none`.
- A caller-supplied non-primitive, non-`Denial` error object is modelled
  by `ErrVal.custom` with a numeric identity.
- The typed evaluators operate on the declared recursive unions
  (`Permit<T>`, `Privilege`, `Permission<T>`).  The runtime dispatch of
  `evaluatePermit` on values outside the declared union (null, numbers,
  booleans, undefined) is modelled separately by `evaluatePermitRt`,
  which follows the source's `typeof` tests on those extra leaves.
- Thrown errors are modelled with `Except`: `Except.error e` is a throw
  of the value `e`.
-/

namespace Permanager

/-- JavaScript primitive values that can appear in an `error` field or in
a `Denial`'s `value` field.  `undefined` is modelled by `Option.none` at
use sites. -/
inductive JsPrim where
  | str (s : String)
  | bool (b : Bool)
  | num (n : Int)
  | bigint (n : Int)
deriving DecidableEq, Repr

/-- JavaScript template-literal stringification of a possibly-undefined
primitive, as performed inside the backtick strings of the `Denial`
constructors. -/
def jsTemplate : Option JsPrim → String
  | none => "undefined"
  | some (.str s) => s
  | some (.bool true) => "true"
  | some (.bool false) => "false"
  | some (.num n) => toString n
  | some (.bigint n) => toString n

/-- An error value carried in the `error` field of an `Approval` or a
`Role`.  `denial` is an instance of the library's `Denial` class (its
`cause` and `value` fields), `custom` is a caller-supplied rich error
object (identity only), and `prim` is a primitive error value. -/
inductive ErrVal where
  | denial (cause : String) (value : Option JsPrim)
  | custom (id : Nat)
  | prim (p : JsPrim)
deriving DecidableEq, Repr

/-- Approval: `{ value: boolean, error?: any }` (src/src/index.ts lines
22-31). -/
structure Approval where
  value : Bool
  error : Option ErrVal
deriving DecidableEq, Repr

/-- Role of the first revision: `{ value: string, error: any }`
(src/src/index.ts lines 35-44). -/
structure Role where
  value : String
  error : Option ErrVal
deriving DecidableEq, Repr

/-- The `Privilege` recursive union (src/src/index.ts lines 51-63):
a pending computation of a privilege result, an array of privileges, a
boolean, an `Approval` object, or a function of the role. -/
inductive Privilege where
  | promise (p : Privilege)
  | arr (ps : List Privilege)
  | bool (b : Bool)
  | approval (a : Approval)
  | func (f : Role → Privilege)

/-- The `Permit<T>` recursive union (src/src/index.ts lines 78-90):
a pending computation, an array of permits, a string, a `Role` object, or
a function of the target. -/
inductive Permit (T : Type) where
  | promise (p : Permit T)
  | arr (ps : List (Permit T))
  | str (s : String)
  | role (r : Role)
  | func (f : T → Permit T)

/-- The `Permission<T>` recursive union (src/src/index.ts lines 104-116):
a pending computation, an array of permissions, a boolean, an `Approval`
object, or a function of the privilege and the target. -/
inductive Permission (T : Type) where
  | promise (p : Permission T)
  | arr (ps : List (Permission T))
  | bool (b : Bool)
  | approval (a : Approval)
  | func (f : Privilege → T → Permission T)

mutual

/-- `evaluatePrivilege` (src/src/index.ts lines 405-429): dispatch on the
runtime shape of the privilege; a pending computation recurses on its
resolved value, an array fans out over the siblings and concatenates in
original order, a boolean yields one Approval carrying
`Denial('Privilege', b)`, an Approval object is returned as a singleton,
and a function is invoked with the role and its result recursed on. -/
def evaluatePrivilege : Privilege → Role → List Approval
  | .promise p, role => evaluatePrivilege p role
  | .arr ps, role => evaluatePrivilegeList ps role
  | .bool b, _ => [⟨b, some (.denial "Privilege" (some (.bool b)))⟩]
  | .approval a, _ => [a]
  | .func f, role => evaluatePrivilege (f role) role

/-- The array branch of `evaluatePrivilege`:
`Promise.all(privilege.map(it => evaluatePrivilege(it, role))).then(it => it.flatMap(it => it))`
— each sibling is evaluated and the results are concatenated in original
sibling order. -/
def evaluatePrivilegeList : List Privilege → Role → List Approval
  | [], _ => []
  | p :: ps, role => evaluatePrivilege p role ++ evaluatePrivilegeList ps role

end

mutual

/-- `evaluatePermit` (src/src/index.ts lines 438-462) on the declared
union: a pending computation recurses on its resolved value, an array
fans out and concatenates in original order, a string yields one Role
`{value: s, error: Denial('Permit', s)}`, a Role object becomes a
singleton, and a function is invoked with the target and recursed on. -/
def evaluatePermit {T : Type} : Permit T → T → List Role
  | .promise p, t => evaluatePermit p t
  | .arr ps, t => evaluatePermitList ps t
  | .str s, _ => [⟨s, some (.denial "Permit" (some (.str s)))⟩]
  | .role r, _ => [r]
  | .func f, t => evaluatePermit (f t) t

/-- The array branch of `evaluatePermit`: fan out over the siblings and
concatenate the resulting Role sequences in original sibling order. -/
def evaluatePermitList {T : Type} : List (Permit T) → T → List Role
  | [], _ => []
  | p :: ps, t => evaluatePermit p t ++ evaluatePermitList ps t

end

mutual

/-- `evaluatePermission` (src/src/index.ts lines 371-396): a pending
computation recurses, an array fans out and concatenates in order, a
boolean yields one Approval carrying `Denial('Permission', b)`, an
Approval object becomes a singleton, and a function is invoked with the
privilege and target and recursed on. -/
def evaluatePermission {T : Type} : Permission T → Privilege → T → List Approval
  | .promise p, priv, t => evaluatePermission p priv t
  | .arr ps, priv, t => evaluatePermissionList ps priv t
  | .bool b, _, _ => [⟨b, some (.denial "Permission" (some (.bool b)))⟩]
  | .approval a, _, _ => [a]
  | .func f, priv, t => evaluatePermission (f priv t) priv t

/-- The array branch of `evaluatePermission`: fan out over the siblings
and concatenate in original sibling order. -/
def evaluatePermissionList {T : Type} : List (Permission T) → Privilege → T → List Approval
  | [], _, _ => []
  | p :: ps, priv, t => evaluatePermission p priv t ++ evaluatePermissionList ps priv t

end

/-- The inner scan of `checkPermit` and `checkPermission`:
`for (const approval of approvals) if (!approval.value) return approval`
— the first Approval whose `value` is false, if any. -/
def firstFalse : List Approval → Option Approval
  | [] => none
  | a :: rest => if a.value then firstFalse rest else some a

/-- The Role loop of `checkPermit` (src/src/index.ts lines 166-175): for
each role in order, evaluate the privilege; on an empty Approval sequence
return `{value: false, error: role.error}`; otherwise return the first
false Approval if there is one, else continue with the remaining roles. -/
def checkRoles (privilege : Privilege) : List Role → Approval
  | [] => ⟨true, none⟩
  | role :: rest =>
    let approvals := evaluatePrivilege privilege role
    if approvals = [] then ⟨false, role.error⟩
    else
      match firstFalse approvals with
      | some a => a
      | none => checkRoles privilege rest

/-- `checkPermit` (src/src/index.ts lines 165-178): evaluate the permit
to its Role sequence and run the Role loop; if it is exhausted, return
`{value: true}`. -/
def checkPermit {T : Type} (permit : Permit T) (privilege : Privilege) (t : T) : Approval :=
  checkRoles privilege (evaluatePermit permit t)

/-- `checkPermission` (src/src/index.ts lines 188-199): evaluate the
permission; an empty Approval sequence fails with `Denial('Approval')`;
otherwise return the first false Approval, else `{value: true}`. -/
def checkPermission {T : Type} (permission : Permission T) (privilege : Privilege) (t : T) : Approval :=
  let approvals := evaluatePermission permission privilege t
  if approvals = [] then ⟨false, some (.denial "Approval" none)⟩
  else
    match firstFalse approvals with
    | some a => a
    | none => ⟨true, none⟩

/-- `checkPermits` (src/src/index.ts lines 209-218): run the given
checks sequentially and return the first approval whose `value` is
false; if none fails, `{value: true}`. -/
def checkPermits {T : Type} : List (Permit T × Privilege × T) → Approval
  | [] => ⟨true, none⟩
  | (permit, privilege, t) :: rest =>
    let approval := checkPermit permit privilege t
    if approval.value then checkPermits rest else approval

/-- The `switch (typeof approval.error)` of the `require*` operations:
a primitive error (string, boolean, number, bigint) or an absent /
undefined one is wrapped into a fresh `Denial(category, error)`; any
object (a `Denial` instance or a caller-supplied custom error) is thrown
verbatim. -/
def materializeThrow (category : String) : Option ErrVal → ErrVal
  | none => .denial category none
  | some (.prim p) => .denial category (some p)
  | some (.denial c v) => .denial c v
  | some (.custom i) => .custom i

/-- `requirePermit` of the first revision (src/src/index.ts lines
294-309): check the permit; on failure throw the materialized error
with category `'Permit'`; on success return nothing. -/
def requirePermit {T : Type} (permit : Permit T) (privilege : Privilege) (t : T) :
    Except ErrVal Unit :=
  let approval := checkPermit permit privilege t
  if approval.value then .ok () else .error (materializeThrow "Permit" approval.error)

/-- `requirePermission` of the first revision (src/src/index.ts lines
318-333): check the permission; on failure a primitive error is wrapped
as `new Denial('Permit', approval.error)` — the source's literal category
tag, even though this is the Permission operation — and a non-primitive
error is thrown verbatim; on success return nothing. -/
def requirePermissionV1 {T : Type} (permission : Permission T) (privilege : Privilege) (t : T) :
    Except ErrVal Unit :=
  let approval := checkPermission permission privilege t
  if approval.value then .ok () else .error (materializeThrow "Permit" approval.error)

/-- `requirePermission` of the second revision (src/src/index.ts lines
775-792): same check, but a primitive error is wrapped as
`new Denial('Permission', approval.error)` and on success the original
target is returned. -/
def requirePermissionV2 {T : Type} (permission : Permission T) (privilege : Privilege) (t : T) :
    Except ErrVal T :=
  let approval := checkPermission permission privilege t
  if approval.value then .ok t else .error (materializeThrow "Permission" approval.error)

/-- The `Denial` object produced by a constructor call: its `cause` and
`value` fields and the `message` passed to `super(...)`. -/
structure DenialObj where
  cause : String
  value : Option JsPrim
  message : String
deriving DecidableEq, Repr

/-- The `Denial` constructor of the first revision (src/src/index.ts
lines 6-15): `super(value === undefined ? ` followed by the template
`Denial: cause: value` and otherwise the template `Denial: cause`. -/
def DenialV1 (cause : String) (value : Option JsPrim) : DenialObj :=
  ⟨cause, value,
    if value = none then "Denial: " ++ cause ++ ": " ++ jsTemplate value
    else "Denial: " ++ cause⟩

/-- The `Denial` constructor of the second revision (src/src/index.ts
lines 468-477): `super(value !== undefined ? ` followed by the template
`Denial: cause: value` and otherwise the template `Denial: cause`. -/
def DenialV2 (cause : String) (value : Option JsPrim) : DenialObj :=
  ⟨cause, value,
    if value ≠ none then "Denial: " ++ cause ++ ": " ++ jsTemplate value
    else "Denial: " ++ cause⟩

/-- A runtime JavaScript value handed to `evaluatePermit`, including
values outside the declared `Permit<T>` union: `null`, booleans, numbers
and `undefined`.  Each constructor records which `typeof` class the value
falls into at the dispatch points of the source. -/
inductive PermitRt (T : Type) where
  | promise (p : PermitRt T)
  | arr (ps : List (PermitRt T))
  | str (s : String)
  | obj (r : Role)
  | jsNull
  | bool (b : Bool)
  | num (n : Int)
  | undef
  | func (f : T → PermitRt T)

/-- An element of the sequence returned by the runtime `evaluatePermit`:
either a Role object, or the raw `null` that the `typeof === 'object'`
branch returned unchanged. -/
inductive RoleRt where
  | role (r : Role)
  | nullRole
deriving DecidableEq, Repr

mutual

/-- `evaluatePermit` (src/src/index.ts lines 438-462) at the runtime
level, including values outside the declared union.  The dispatch order
of the source is: `instanceof Promise`, `Array.isArray`, `typeof ===
'string'`, `typeof === 'object'`, `typeof === 'function'`, then `throw
new Error('Invalid Permit Type')`.  JavaScript's `typeof null` is
`'object'`, so `null` is caught by the object branch and returned as a
one-element sequence unchanged; booleans, numbers and `undefined` match
no branch and reach the throw. -/
def evaluatePermitRt {T : Type} : PermitRt T → T → Except String (List RoleRt)
  | .promise p, t => evaluatePermitRt p t
  | .arr ps, t => evaluatePermitRtList ps t
  | .str s, _ => .ok [.role ⟨s, some (.denial "Permit" (some (.str s)))⟩]
  | .obj r, _ => .ok [.role r]
  | .jsNull, _ => .ok [.nullRole]
  | .bool _, _ => .error "Invalid Permit Type"
  | .num _, _ => .error "Invalid Permit Type"
  | .undef, _ => .error "Invalid Permit Type"
  | .func f, t => evaluatePermitRt (f t) t

/-- The array branch of the runtime `evaluatePermit`: evaluate every
sibling and concatenate in original order; a rejection of any sibling
rejects the whole `Promise.all`. -/
def evaluatePermitRtList {T : Type} : List (PermitRt T) → T → Except String (List RoleRt)
  | [], _ => .ok []
  | p :: ps, t => do
    let r ← evaluatePermitRt p t
    let rs ← evaluatePermitRtList ps t
    pure (r ++ rs)

end

mutual

/-- Embed a permit of the declared union into the runtime value type. -/
def Permit.toRt {T : Type} : Permit T → PermitRt T
  | .promise p => .promise p.toRt
  | .arr ps => .arr (Permit.toRtList ps)
  | .str s => .str s
  | .role r => .obj r
  | .func f => .func (fun t => (f t).toRt)

/-- Embed a list of permits of the declared union elementwise. -/
def Permit.toRtList {T : Type} : List (Permit T) → List (PermitRt T)
  | [] => []
  | p :: ps => p.toRt :: Permit.toRtList ps

end

-- Specification-side descriptions, written from the wording of spec.md,
-- to be compared with the source-translated functions above.

/-- The per-Role scan of `checkPermit` as described by spec.md §4.4: for
each Role in order, if the Privilege's Approval sequence is empty, stop
with `{value: false, error: role.error}`; otherwise the first Approval
with `value === false`, located by a first-match search, is returned
immediately; if every Role's sequence is exhausted with no false value,
`{value: true}`. -/
def checkRolesSpec (privilege : Privilege) : List Role → Approval
  | [] => ⟨true, none⟩
  | role :: rest =>
    let approvals := evaluatePrivilege privilege role
    if approvals = [] then ⟨false, role.error⟩
    else
      match approvals.find? (fun a => a.value = false) with
      | some a => a
      | none => checkRolesSpec privilege rest

/-- `checkPermission` as described by spec.md §4.5: an empty Approval
sequence fails with a generic `Denial('Approval')`; otherwise the first
false Approval, located by a first-match search, else success. -/
def checkPermissionSpec {T : Type} (permission : Permission T) (privilege : Privilege) (t : T) :
    Approval :=
  let approvals := evaluatePermission permission privilege t
  if approvals = [] then ⟨false, some (.denial "Approval" none)⟩
  else
    match approvals.find? (fun a => a.value = false) with
    | some a => a
    | none => ⟨true, none⟩

-- Helper lemmas

theorem firstFalse_eq_find (l : List Approval) :
    firstFalse l = l.find? (fun a => a.value = false) := by
  induction l with
  | nil => rfl
  | cons a rest ih =>
    by_cases h : a.value <;> simp [firstFalse, List.find?, h, ih]

theorem firstFalse_eq_none_iff (l : List Approval) :
    firstFalse l = none ↔ ∀ a ∈ l, a.value = true := by
  induction l with
  | nil => simp [firstFalse]
  | cons a rest ih =>
    by_cases h : a.value <;> simp [firstFalse, h, ih]

theorem firstFalse_eq_some (l : List Approval) (a : Approval)
    (h : firstFalse l = some a) : a ∈ l ∧ a.value = false := by
  induction l with
  | nil => simp [firstFalse] at h
  | cons b rest ih =>
    by_cases hb : b.value
    · simp only [firstFalse, hb, if_true] at h
      rcases ih h with ⟨hmem, hval⟩
      exact ⟨List.mem_cons_of_mem _ hmem, hval⟩
    · simp only [firstFalse, hb, if_false] at h
      cases h
      exact ⟨List.mem_cons_self _ _, by simpa using hb⟩

theorem checkRoles_eq_spec (privilege : Privilege) (roles : List Role) :
    checkRoles privilege roles = checkRolesSpec privilege roles := by
  induction roles with
  | nil => rfl
  | cons r rest ih =>
    simp only [checkRoles, checkRolesSpec, ← firstFalse_eq_find, ih]

theorem checkRoles_eq_true_iff (privilege : Privilege) (roles : List Role) :
    checkRoles privilege roles = ⟨true, none⟩ ↔
      ∀ r ∈ roles, evaluatePrivilege privilege r ≠ [] ∧
        ∀ a ∈ evaluatePrivilege privilege r, a.value = true := by
  induction roles with
  | nil => simp [checkRoles]
  | cons r rest ih =>
    simp only [checkRoles]
    by_cases hemp : evaluatePrivilege privilege r = []
    · simp only [hemp, if_true]
      constructor
      · intro h
        cases h
      · intro h
        exact absurd hemp (h r (List.mem_cons_self _ _)).1
    · simp only [hemp, if_false]
      cases hf : firstFalse (evaluatePrivilege privilege r) with
      | some a =>
        rcases firstFalse_eq_some _ _ hf with ⟨hmem, hval⟩
        constructor
        · intro h
          subst h
          simp at hval
        · intro h
          have := (h r (List.mem_cons_self _ _)).2 a hmem
          rw [this] at hval
          cases hval
      | none =>
        rw [ih]
        constructor
        · intro h x hx
          rcases List.mem_cons.mp hx with hx | hx
          · subst hx
            exact ⟨hemp, (firstFalse_eq_none_iff _).mp hf⟩
          · exact h x hx
        · intro h x hx
          exact h x (List.mem_cons_of_mem _ hx)

theorem checkPermits_append {T : Type} (xs ys : List (Permit T × Privilege × T)) :
    checkPermits (xs ++ ys) =
      (if (checkPermits xs).value then checkPermits ys else checkPermits xs) := by
  induction xs with
  | nil => simp [checkPermits]
  | cons c rest ih =>
    obtain ⟨permit, privilege, t⟩ := c
    by_cases h : (checkPermit permit privilege t).value
    · simpa [checkPermits, h] using ih
    · simp [checkPermits, h]

-- Claim theorems

/-- C1: for every permit, privilege and target, `checkPermit` iterates
the Role sequence produced by `evaluatePermit` in order; for the first
Role reached whose `evaluatePrivilege` result is an empty sequence it
returns `{value: false, error: role.error}` (the Role's own error);
otherwise it returns the first Approval with value false found scanning
that Role's Approval sequence in order, stopping all further processing;
if every Role's Approval sequence is exhausted with no false value, it
returns `{value: true}`. -/
theorem checkPermit_role_scan {T : Type} (permit : Permit T) (privilege : Privilege) (t : T) :
    checkPermit permit privilege t = checkRolesSpec privilege (evaluatePermit permit t) ∧
    (checkPermit permit privilege t = ⟨true, none⟩ ↔
      ∀ r ∈ evaluatePermit permit t, evaluatePrivilege privilege r ≠ [] ∧
        ∀ a ∈ evaluatePrivilege privilege r, a.value = true) := by
  exact ⟨checkRoles_eq_spec _ _, checkRoles_eq_true_iff _ _⟩

/-- C1 witness: the theorem applied at a concrete permit, privilege and
target. -/
theorem checkPermit_role_scan_witness :
    checkPermit (Permit.str "a") (Privilege.bool true) () =
      checkRolesSpec (Privilege.bool true) (evaluatePermit (Permit.str "a") ()) ∧
    (checkPermit (Permit.str "a") (Privilege.bool true) () = ⟨true, none⟩ ↔
      ∀ r ∈ evaluatePermit (Permit.str "a") (),
        evaluatePrivilege (Privilege.bool true) r ≠ [] ∧
        ∀ a ∈ evaluatePrivilege (Privilege.bool true) r, a.value = true) :=
  checkPermit_role_scan (Permit.str "a") (Privilege.bool true) ()

/-- C2: for every permission, privilege and target, `checkPermission`
follows the spec description: an empty Approval sequence fails with
`Denial('Approval')`, otherwise the first false Approval is returned,
else `{value: true}`; in particular `checkPermission([], privilege, t)`
yields `{value: false, error: Denial('Approval')}` and
`checkPermission(false, privilege, t)` yields
`{value: false, error: Denial('Permission', false)}`. -/
theorem checkPermission_empty_denial {T : Type} (permission : Permission T)
    (privilege : Privilege) (t : T) :
    checkPermission permission privilege t = checkPermissionSpec permission privilege t ∧
    checkPermission (Permission.arr ([] : List (Permission T))) privilege t =
      ⟨false, some (.denial "Approval" none)⟩ ∧
    checkPermission (Permission.bool false) privilege t =
      ⟨false, some (.denial "Permission" (some (.bool false)))⟩ := by
  refine ⟨?_, rfl, rfl⟩
  simp only [checkPermission, checkPermissionSpec, ← firstFalse_eq_find]

/-- C3: for all permits `p1`, `p2` and every target `t`,
`evaluatePermit([p1, p2], t)` equals the concatenation of
`evaluatePermit(p1, t)` followed by `evaluatePermit(p2, t)`, in sibling
order. -/
theorem evaluatePermit_pair_concat {T : Type} (p1 p2 : Permit T) (t : T) :
    evaluatePermit (Permit.arr [p1, p2]) t = evaluatePermit p1 t ++ evaluatePermit p2 t := by
  simp [evaluatePermit, evaluatePermitList]

/-- C4 counterexample: `requirePermit('x', false, t)` throws the
Privilege-layer `Denial('Privilege', false)` rethrown verbatim, whose
cause is `'Privilege'`, not `'Permit'` as the claim states. -/
theorem requirePermit_false_privilege_cause :
    requirePermit (Permit.str "x") (Privilege.bool false) () =
      .error (.denial "Privilege" (some (.bool false))) ∧
    ("Privilege" : String) ≠ "Permit" := by
  exact ⟨rfl, by decide⟩

/-- C4 amended: for every target, `requirePermit('x', false, t)` throws
the `Denial('Privilege', false)` produced at the Privilege layer,
rethrown verbatim since a `Denial` instance is not a primitive; and
`requirePermit('x', {value:false, error: e}, t)` with a non-primitive
custom error object `e` throws that exact object unchanged. -/
theorem requirePermit_rethrows_verbatim {T : Type} (t : T) (i : Nat) :
    requirePermit (Permit.str "x") (Privilege.bool false) t =
      .error (.denial "Privilege" (some (.bool false))) ∧
    requirePermit (Permit.str "x") (Privilege.approval ⟨false, some (.custom i)⟩) t =
      .error (.custom i) := by
  exact ⟨rfl, rfl⟩

/-- C5: on a failing check with a primitive (string) `error` field, the
first revision's `requirePermission` wraps it as `Denial('Permit', ...)`
(the source's literal tag at line 329), while the second revision's
`requirePermission` wraps it as `Denial('Permission', ...)`; the two tags
differ, so the first revision contradicts the claimed
own-operation-category tagging. -/
theorem requirePermission_category_tags :
    requirePermissionV1 (Permission.approval ⟨false, some (.prim (.str "nope"))⟩)
        (Privilege.bool true) () =
      .error (.denial "Permit" (some (.str "nope"))) ∧
    requirePermissionV2 (Permission.approval ⟨false, some (.prim (.str "nope"))⟩)
        (Privilege.bool true) () =
      .error (.denial "Permission" (some (.str "nope"))) ∧
    ErrVal.denial "Permit" (some (.str "nope")) ≠
      ErrVal.denial "Permission" (some (.str "nope")) := by
  exact ⟨rfl, rfl, by decide⟩

/-- C6 counterexample: `evaluatePermit(null, t)` does not abort with
`'Invalid Permit Type'`: JavaScript's `typeof null` is `'object'`, so
`null` is caught by the object branch and returned as the one-element
sequence `[null]`. -/
theorem evaluatePermitRt_null_returned :
    evaluatePermitRt (PermitRt.jsNull : PermitRt Unit) () = .ok [.nullRole] ∧
    (Except.ok [RoleRt.nullRole] : Except String (List RoleRt)) ≠
      .error "Invalid Permit Type" := by
  exact ⟨rfl, fun h => Except.noConfusion h⟩

/-- C6 amended: for every permit value outside the declared union whose
JavaScript `typeof` is not `'object'` — a number, a boolean, or
`undefined` — `evaluatePermit` aborts with the unrecoverable
`'Invalid Permit Type'` failure; `null`, although outside the union,
satisfies the `typeof === 'object'` test and is instead returned as the
one-element sequence `[null]`. -/
theorem evaluatePermitRt_invalid_types {T : Type} (t : T) (n : Int) (b : Bool) :
    evaluatePermitRt (PermitRt.num n : PermitRt T) t = .error "Invalid Permit Type" ∧
    evaluatePermitRt (PermitRt.bool b : PermitRt T) t = .error "Invalid Permit Type" ∧
    evaluatePermitRt (PermitRt.undef : PermitRt T) t = .error "Invalid Permit Type" ∧
    evaluatePermitRt (PermitRt.jsNull : PermitRt T) t = .ok [.nullRole] := by
  exact ⟨rfl, rfl, rfl, rfl⟩

/-- C7: `checkPermits` evaluates its tuples sequentially: the empty list
yields `{value: true}`, a leading tuple whose check fails is returned as
the overall result, and for any split `checks ++ rest` the result equals
the result on `checks` whenever that already fails — so the result is
independent of all tuples after the first failing one. -/
theorem checkPermits_first_failure {T : Type} (checks rest : List (Permit T × Privilege × T))
    (permit : Permit T) (privilege : Privilege) (t : T) :
    checkPermits (checks ++ rest) =
      (if (checkPermits checks).value then checkPermits rest else checkPermits checks) ∧
    checkPermits ([] : List (Permit T × Privilege × T)) = ⟨true, none⟩ ∧
    checkPermits ((permit, privilege, t) :: rest) =
      (if (checkPermit permit privilege t).value then checkPermits rest
       else checkPermit permit privilege t) := by
  refine ⟨checkPermits_append _ _, rfl, ?_⟩
  simp [checkPermits]

/-- C8: for every string `s` and target, `evaluatePermit(s, target)`
returns exactly one Role `{value: s, error: Denial('Permit', s)}`;
consequently `checkPermit('x', (role) => [], t)` returns
`{value: false, error: Denial('Permit', 'x')}`. -/
theorem evaluatePermit_string_role {T : Type} (s : String) (t : T) :
    evaluatePermit (Permit.str s : Permit T) t =
      [⟨s, some (.denial "Permit" (some (.str s)))⟩] ∧
    checkPermit (Permit.str "x") (Privilege.func (fun _ => Privilege.arr [])) t =
      ⟨false, some (.denial "Permit" (some (.str "x")))⟩ := by
  exact ⟨rfl, rfl⟩

/-- C9: for every privilege and target, `checkPermit([], privilege, t)`
returns `{value: true}` with no error field — an empty-array Permit
produces zero Roles and is vacuously approved — while
`checkPermission([], privilege, t)` denies with `Denial('Approval')`. -/
theorem checkPermit_empty_array_vacuous {T : Type} (privilege : Privilege) (t : T) :
    checkPermit (Permit.arr ([] : List (Permit T))) privilege t = ⟨true, none⟩ ∧
    checkPermission (Permission.arr ([] : List (Permission T))) privilege t =
      ⟨false, some (.denial "Approval" none)⟩ := by
  exact ⟨rfl, rfl⟩

/-- C10: the two revisions' `Denial` constructors agree in the `cause`
and `value` fields, but at `cause = 'Permit'`, `value = 'x'` the first
revision's message is `'Denial: Permit'` while the second's is
`'Denial: Permit: x'` — the first revision's condition is inverted, so
the two constructors do not carry the same message string. -/
theorem denial_message_variants_differ :
    (DenialV1 "Permit" (some (.str "x"))).cause = (DenialV2 "Permit" (some (.str "x"))).cause ∧
    (DenialV1 "Permit" (some (.str "x"))).value = (DenialV2 "Permit" (some (.str "x"))).value ∧
    (DenialV1 "Permit" (some (.str "x"))).message = "Denial: Permit" ∧
    (DenialV2 "Permit" (some (.str "x"))).message = "Denial: Permit: x" ∧
    (DenialV1 "Permit" (some (.str "x"))).message ≠
      (DenialV2 "Permit" (some (.str "x"))).message := by
  refine ⟨rfl, rfl, ?_, ?_, ?_⟩ <;> decide

end Permanager
